import Mathlib

/-!
Verification of the pricing/formatting helpers of the tamam-web-app
repository (src/helper-functions/CardHelpers.js): `getAmountWithSign`,
`getDiscountedAmount`, `getSelectedAddOn`, `getReferDiscount`.

Modelling conventions (shallow embedding of the JavaScript source):
* A JavaScript number is modelled exactly as `JSNum`: `NaN`, signed
  infinity, or a finite rational.  This is the idealized exact-arithmetic
  model; IEEE-754 double rounding is out of scope, and decimal rendering of
  integers is idealized to plain decimal notation (JavaScript only switches
  to exponential notation at magnitudes at or beyond 10^21, far outside
  every input considered here).
* A JavaScript value that may be `null`, `undefined`, a string or a number
  is modelled as `JSValue`; the builtin `Number(...)` conversion is
  modelled by `jsToNumber`, covering the decimal-literal fragment of the
  ECMAScript string grammar ("Infinity" forms included; hex/octal/binary
  literal strings are outside the model, no claim touches them).
* A JavaScript function that can throw is modelled as returning
  `Except String String`, the `.error` case carrying the exception text;
  `Number.prototype.toFixed` throws a RangeError when its digits argument
  is outside 0..100, per the ECMAScript specification.
-/

/-- A JavaScript number: NaN, an infinity (`neg` gives the sign), or a
finite value, idealized as an exact rational. -/
inductive JSNum where
  | nan : JSNum
  | inf (neg : Bool) : JSNum
  | fin (q : ℚ) : JSNum
deriving DecidableEq, Repr

/-- A JavaScript value as the helpers receive it: `null`, `undefined`,
a string, or a number. -/
inductive JSValue where
  | vnull : JSValue
  | vundef : JSValue
  | vstr (s : String) : JSValue
  | vnum (n : JSNum) : JSValue
deriving DecidableEq, Repr

/-- The `isNaN` test on a JavaScript number. -/
def jsIsNaN : JSNum → Bool
  | JSNum.nan => true
  | _ => false

/-- Value of a list of decimal digit characters read most significant
first (helper of the ECMAScript string-to-number conversion). -/
def natOfDigits (l : List Char) : ℕ :=
  l.foldl (fun a c => a * 10 + (c.toNat - 48)) 0

/-- Parse an optional exponent part `[eE][+-]?digits` closing a decimal
literal, returning the signed exponent; the whole remaining input must be
consumed. -/
def parseExpPart (cs : List Char) : Option ℤ :=
  match cs with
  | [] => some 0
  | c :: rest =>
    if c = 'e' ∨ c = 'E' then
      let (sgn, ds) := match rest with
        | '+' :: t => ((1 : ℤ), t)
        | '-' :: t => ((-1 : ℤ), t)
        | t => ((1 : ℤ), t)
      if ds ≠ [] ∧ ds.all (·.isDigit) then
        some (sgn * (natOfDigits ds : ℤ))
      else none
    else none

/-- Parse an unsigned ECMAScript decimal literal `digits['.'digits?]` or
`'.'digits`, with optional exponent; the result is the raw mantissa
digits, the count of fraction digits, and the exponent.  `none` when the
input is not such a literal. -/
def parseUnsignedDec (cs : List Char) : Option (ℕ × ℕ × ℤ) :=
  let (ip, rest) := cs.span (·.isDigit)
  match rest with
  | '.' :: rest2 =>
    let (fp, rest3) := rest2.span (·.isDigit)
    if ip = [] ∧ fp = [] then none
    else (parseExpPart rest3).map
      (fun e => (natOfDigits (ip ++ fp), fp.length, e))
  | _ =>
    if ip = [] then none
    else (parseExpPart rest).map (fun e => (natOfDigits ip, 0, e))

/-- Value of a parsed decimal literal: signed mantissa `n` times ten to
the `shift` (exponent minus number of fraction digits). -/
def decValue (n : ℤ) (shift : ℤ) : ℚ :=
  if 0 ≤ shift then mkRat (n * (10 : ℤ) ^ shift.toNat) 1
  else mkRat n ((10 : ℕ) ^ (-shift).toNat)

/-- Parse a signed decimal literal: optional single `+`/`-` sign followed
by an unsigned decimal literal. -/
def parseSignedDec (cs : List Char) : Option ℚ :=
  match cs with
  | '+' :: t =>
    (parseUnsignedDec t).map (fun x => decValue (x.1 : ℤ) (x.2.2 - (x.2.1 : ℤ)))
  | '-' :: t =>
    (parseUnsignedDec t).map (fun x => decValue (-(x.1 : ℤ)) (x.2.2 - (x.2.1 : ℤ)))
  | t =>
    (parseUnsignedDec t).map (fun x => decValue (x.1 : ℤ) (x.2.2 - (x.2.1 : ℤ)))

/-- Whitespace as stripped by the ECMAScript `StringNumericLiteral`
grammar (space, tab, newline, carriage return, form/vertical feed). -/
def jsIsWhitespace (c : Char) : Bool :=
  c = ' ' ∨ c = '\t' ∨ c = '\n' ∨ c = '\r' ∨ c = '\x0b' ∨ c = '\x0c'

/-- Strip leading and trailing whitespace from a character list. -/
def trimChars (l : List Char) : List Char :=
  ((l.dropWhile jsIsWhitespace).reverse.dropWhile jsIsWhitespace).reverse

/-- The ECMAScript `Number(...)` conversion (`ToNumber`) restricted to the
values of `JSValue`: `null` converts to 0, `undefined` to NaN, a string by
the decimal-literal grammar (whitespace trimmed, empty string is 0,
"Infinity" forms recognized, anything else NaN), a number to itself. -/
def jsToNumber : JSValue → JSNum
  | JSValue.vnull => JSNum.fin 0
  | JSValue.vundef => JSNum.nan
  | JSValue.vnum n => n
  | JSValue.vstr s =>
    let t := trimChars s.toList
    if t = [] then JSNum.fin 0
    else if t = "Infinity".toList ∨ t = "+Infinity".toList then JSNum.inf false
    else if t = "-Infinity".toList then JSNum.inf true
    else match parseSignedDec t with
      | some q => JSNum.fin q
      | none => JSNum.nan

/-- Truncation of a rational toward zero (drop the fractional part), the
rounding used by the ECMAScript `ToIntegerOrInfinity` conversion. -/
def ratTrunc (q : ℚ) : ℤ :=
  q.num.tdiv (q.den : ℤ)

/-- Result of the ECMAScript `ToIntegerOrInfinity` conversion: an integer
or one of the infinities. -/
inductive IntOrInf where
  | int (i : ℤ) : IntOrInf
  | posInf : IntOrInf
  | negInf : IntOrInf
deriving DecidableEq, Repr

/-- The ECMAScript `ToIntegerOrInfinity` conversion on a number: NaN
becomes 0, infinities stay, finite values are truncated toward zero. -/
def toIntegerOrInfinity : JSNum → IntOrInf
  | JSNum.nan => IntOrInf.int 0
  | JSNum.inf neg => if neg then IntOrInf.negInf else IntOrInf.posInf
  | JSNum.fin q => IntOrInf.int (ratTrunc q)

/-- String of `k` zero characters (padding helper of `toFixed`). -/
def zeroPad (k : ℕ) : String :=
  String.mk (List.replicate k '0')

/-- Digit rendering of `Number.prototype.toFixed` on a finite value `q`
with `f` fraction digits, per the ECMAScript algorithm: extract the sign,
pick the integer `n` with `n / 10^f` closest to `|q|` (ties go to the
larger `n`, i.e. `n = floor(|q| * 10^f + 1/2)`), then place the decimal
point `f` digits from the right, zero-padding as needed. -/
def fixedRepr (q : ℚ) (f : ℕ) : String :=
  let sgn := if q < 0 then "-" else ""
  let n : ℤ := Rat.floor (|q| * (10 : ℚ) ^ f + mkRat 1 2)
  let ds := toString n.toNat
  if f = 0 then sgn ++ ds
  else if ds.length ≤ f then sgn ++ "0." ++ zeroPad (f - ds.length) ++ ds
  else sgn ++ ds.take (ds.length - f) ++ "." ++ ds.drop (ds.length - f)

/-- The RangeError text thrown by `toFixed` for an out-of-range digits
argument. -/
def toFixedRangeErr : String :=
  "RangeError: toFixed() digits argument must be between 0 and 100"

/-- The builtin `Number.prototype.toFixed`, modelled per the ECMAScript
specification: convert the digits argument with `ToIntegerOrInfinity` and
throw a RangeError unless it is an integer in 0..100; then render NaN as
"NaN", infinities as "Infinity"/"-Infinity", and finite values through
`fixedRepr`.  (JavaScript falls back to plain `ToString` at magnitudes at
or beyond 10^21; that regime is outside this exact-rational model.) -/
def jsToFixed (x : JSNum) (digitsVal : JSValue) : Except String String :=
  match toIntegerOrInfinity (jsToNumber digitsVal) with
  | IntOrInf.posInf => Except.error toFixedRangeErr
  | IntOrInf.negInf => Except.error toFixedRangeErr
  | IntOrInf.int f =>
    if f < 0 ∨ 100 < f then Except.error toFixedRangeErr
    else match x with
      | JSNum.nan => Except.ok "NaN"
      | JSNum.inf neg => Except.ok (if neg then "-Infinity" else "Infinity")
      | JSNum.fin q => Except.ok (fixedRepr q f.toNat)

/-- Template-literal rendering of `Math.floor(num)` (source line 29, else
branch): `Math.floor` maps NaN to NaN and infinities to themselves, and a
finite value to its floor, which the template literal then prints in
decimal. -/
def jsFloorToString : JSNum → String
  | JSNum.nan => "NaN"
  | JSNum.inf neg => if neg then "-Infinity" else "Infinity"
  | JSNum.fin q => toString q.floor

/-- The inner `formatNumber` helper of `getAmountWithSign` (source lines
28-30): `needDecimal ? num.toFixed(decimals) : Math.floor(num)`, the
result string-converted by the enclosing template literal. -/
def formatNumber (needDecimal : Bool) (num : JSNum) (decimals : JSValue) :
    Except String String :=
  if needDecimal then jsToFixed num decimals
  else Except.ok (jsFloorToString num)

/-- The configuration object read from the store (source lines 22-25):
each field may be absent or `null`/`undefined` (both folded into `none`
for the string fields; the digits field keeps full `JSValue` generality
since the code applies `?? 2` to it and passes it on to `toFixed`). -/
structure ConfigData where
  digit_after_decimal_point : Option JSValue
  currency_symbol : Option String
  currency_symbol_direction : Option String
deriving DecidableEq, Repr

/-- Source line 23: `configData?.digit_after_decimal_point ?? 2` — the
nullish-coalescing default: absent, `null` or `undefined` becomes the
number 2, any other value passes through. -/
def effDecimals (cfg : ConfigData) : JSValue :=
  match cfg.digit_after_decimal_point with
  | none => JSValue.vnum (JSNum.fin 2)
  | some JSValue.vnull => JSValue.vnum (JSNum.fin 2)
  | some JSValue.vundef => JSValue.vnum (JSNum.fin 2)
  | some v => v

/-- Source line 24: `configData?.currency_symbol || ""` — among strings
only `""` is falsy and `"" || ""` is `""`, so this is the string itself
with absent/nullish collapsed to `""`. -/
def effSymbol (cfg : ConfigData) : String :=
  cfg.currency_symbol.getD ""

/-- Source line 25: `configData?.currency_symbol_direction || "left"` —
the empty string is falsy, so it also falls back to `"left"`. -/
def effDirection (cfg : ConfigData) : String :=
  match cfg.currency_symbol_direction with
  | none => "left"
  | some s => if s = "" then "left" else s

/-- The exported `getAmountWithSign` (source lines 19-37): guard
`amount == null || isNaN(Number(amount))` returns `""` (loose equality
`== null` matches both `null` and `undefined`); otherwise format the
number (`toFixed` may throw, modelled by `Except.error`) and attach the
currency symbol on the configured side. -/
def getAmountWithSign (amount : JSValue) (needDecimal : Bool)
    (cfg : ConfigData) : Except String String :=
  if amount = JSValue.vnull ∨ amount = JSValue.vundef ∨
      jsIsNaN (jsToNumber amount) = true then
    Except.ok ""
  else
    match formatNumber needDecimal (jsToNumber amount) (effDecimals cfg) with
    | Except.error e => Except.error e
    | Except.ok formattedAmount =>
      Except.ok (if effDirection cfg = "left"
        then effSymbol cfg ++ formattedAmount
        else formattedAmount ++ effSymbol cfg)

/-- Decidable check that the digits argument `getAmountWithSign` will pass
to `toFixed` (after the `?? 2` default and `ToIntegerOrInfinity`) lies in
the allowed range 0..100. -/
def digitsOkB (cfg : ConfigData) : Bool :=
  match toIntegerOrInfinity (jsToNumber (effDecimals cfg)) with
  | IntOrInf.int f => decide (0 ≤ f ∧ f ≤ 100)
  | _ => false

set_option linter.unusedVariables false in
/-- The exported `getDiscountedAmount` (source lines 41-60): quantity
defaults to 1 when falsy (the idealized numeric model has no NaN
quantity, so falsy means 0; `none` models an absent argument); when
`discount > 0` the `"amount"` kind subtracts `discount * quantity` and
the `"percent"`/`"fixed"` kinds subtract `discount/100` of the price;
every other case leaves the price unchanged.  `storeDiscount` is accepted
(any type, as in JavaScript) and never read. -/
def getDiscountedAmount {α : Type} (price discount : ℚ)
    (discountType : String) (storeDiscount : α) (quantity : Option ℚ) : ℚ :=
  let q : ℚ := match quantity with
    | some qq => if qq = 0 then 1 else qq
    | none => 1
  if 0 < discount then
    if discountType = "amount" then price - discount * q
    else if discountType = "percent" ∨ discountType = "fixed" then
      price - discount / 100 * price
    else price
  else price

/-- An add-on entry as consumed by `getSelectedAddOn`. -/
structure AddOn where
  name : String
  isChecked : Bool
deriving DecidableEq, Repr

/-- The loop body of `getSelectedAddOn` (source lines 64-68): a `map` run
for its side effect on the accumulator `add_on`, appending
`(index !== 0 ? ", " : "") + item.name` for each checked item, where
`index` is the position in the full list. -/
def getSelectedAddOnAux : List AddOn → ℕ → String → String
  | [], _, acc => acc
  | item :: rest, index, acc =>
    getSelectedAddOnAux rest (index + 1)
      (if item.isChecked then
        acc ++ (if index ≠ 0 then ", " else "") ++ item.name
      else acc)

/-- The exported `getSelectedAddOn` (source lines 61-71): start from
`""`, iterate only when the list is non-empty, return the accumulator. -/
def getSelectedAddOn (add_ons : List AddOn) : String :=
  if add_ons.length > 0 then getSelectedAddOnAux add_ons 0 "" else ""

/-- The exported `getReferDiscount` (source lines 98-108): percentage kind
takes `refDiscount` percent of the total, anything else returns
`refDiscount` verbatim. -/
def getReferDiscount (totalAmountForRefer refDiscount : ℚ)
    (refPercentage : String) : ℚ :=
  if refPercentage = "percentage" then refDiscount / 100 * totalAmountForRefer
  else refDiscount

/-- Modelled from the spec (section 4.4, `joinSelectedAddOns`), for
comparison with `getSelectedAddOn`: iterate the ordered sequence and
include the name of each entry whose `isChecked` is true, emitting a
`", "` separator before every checked item whose index in the full
original sequence is non-zero.  `i` is the index of the current head. -/
def joinSelectedAddOnsFrom : ℕ → List AddOn → String
  | _, [] => ""
  | i, a :: t =>
    (if a.isChecked then (if i ≠ 0 then ", " else "") ++ a.name else "") ++
      joinSelectedAddOnsFrom (i + 1) t

/-- Modelled from the spec (section 4.4): the add-on label builder
described by the spec's words, started at index 0. -/
def joinSelectedAddOns (l : List AddOn) : String :=
  joinSelectedAddOnsFrom 0 l

/-- Concrete configuration with a dollar symbol placed on the right, as in
the spec's `formatAmount(12.345, false, {decimalDigits:2,
currencySymbol:"$", symbolPosition:"right"})` example. -/
def cfgDollarRight : ConfigData :=
  { digit_after_decimal_point := none,
    currency_symbol := some "$",
    currency_symbol_direction := some "right" }

/-- Concrete configuration with every field absent. -/
def cfgEmpty : ConfigData :=
  { digit_after_decimal_point := none,
    currency_symbol := none,
    currency_symbol_direction := none }

/-- Concrete configuration whose decimal-digit count 101 is outside the
range `toFixed` accepts. -/
def cfgDigits101 : ConfigData :=
  { digit_after_decimal_point := some (JSValue.vnum (JSNum.fin 101)),
    currency_symbol := none,
    currency_symbol_direction := none }

lemma getSelectedAddOnAux_eq_join (l : List AddOn) :
    ∀ (i : ℕ) (acc : String),
      getSelectedAddOnAux l i acc = acc ++ joinSelectedAddOnsFrom i l := by
  induction l with
  | nil =>
    intro i acc
    simp [getSelectedAddOnAux, joinSelectedAddOnsFrom, String.append_empty]
  | cons a t ih =>
    intro i acc
    simp only [getSelectedAddOnAux, joinSelectedAddOnsFrom, ih]
    by_cases ha : a.isChecked
    · simp [ha, String.append_assoc]
    · simp [ha, String.empty_append]

lemma getSelectedAddOn_eq_join (l : List AddOn) :
    getSelectedAddOn l = joinSelectedAddOns l := by
  cases l with
  | nil => rfl
  | cons a t =>
    simp only [getSelectedAddOn, joinSelectedAddOns, List.length_cons,
      gt_iff_lt, Nat.succ_pos, if_true, getSelectedAddOnAux_eq_join,
      String.empty_append]

lemma joinSelectedAddOnsFrom_unchecked (l : List AddOn) :
    ∀ i, (∀ x ∈ l, x.isChecked = false) → joinSelectedAddOnsFrom i l = "" := by
  induction l with
  | nil => intro i _; rfl
  | cons a t ih =>
    intro i h
    have ha : a.isChecked = false := h a (List.mem_cons_self a t)
    have ht : ∀ x ∈ t, x.isChecked = false := fun x hx => h x (List.mem_cons_of_mem a hx)
    simp [joinSelectedAddOnsFrom, ha, ih (i + 1) ht, String.empty_append]

lemma joinSelectedAddOnsFrom_sep (l : List AddOn) :
    ∀ i, i ≠ 0 → (∃ x ∈ l, x.isChecked = true) →
      ∃ s, joinSelectedAddOnsFrom i l = ", " ++ s := by
  induction l with
  | nil =>
    intro i _ hc
    rcases hc with ⟨x, hx, _⟩
    exact absurd hx (List.not_mem_nil x)
  | cons a t ih =>
    intro i hi hc
    by_cases ha : a.isChecked
    · refine ⟨a.name ++ joinSelectedAddOnsFrom (i + 1) t, ?_⟩
      simp [joinSelectedAddOnsFrom, ha, hi, String.append_assoc]
    · have hc' : ∃ x ∈ t, x.isChecked = true := by
        rcases hc with ⟨x, hx, hxc⟩
        rcases List.mem_cons.mp hx with rfl | hxt
        · exact absurd hxc (by simpa using ha)
        · exact ⟨x, hxt, hxc⟩
      rcases ih (i + 1) (Nat.succ_ne_zero i) hc' with ⟨s, hs⟩
      refine ⟨s, ?_⟩
      simp [joinSelectedAddOnsFrom, ha, hs, String.empty_append]

lemma jsToFixed_ok_of_digitsOk (cfg : ConfigData)
    (h : digitsOkB cfg = true) (x : JSNum) :
    ∃ s, jsToFixed x (effDecimals cfg) = Except.ok s := by
  unfold digitsOkB at h
  unfold jsToFixed
  rcases hm : toIntegerOrInfinity (jsToNumber (effDecimals cfg)) with f | _ | _
  · rw [hm] at h
    have hf : 0 ≤ f ∧ f ≤ 100 := by simpa using h
    have hrange : ¬(f < 0 ∨ 100 < f) := by
      push_neg
      exact ⟨hf.1, hf.2⟩
    simp only [if_neg hrange]
    cases x with
    | nan => exact ⟨"NaN", rfl⟩
    | inf neg => exact ⟨if neg then "-Infinity" else "Infinity", rfl⟩
    | fin q => exact ⟨fixedRepr q f.toNat, rfl⟩
  · rw [hm] at h; exact absurd h (by simp)
  · rw [hm] at h; exact absurd h (by simp)

lemma jsToFixed_err_of_digitsBad (cfg : ConfigData)
    (h : digitsOkB cfg = false) (x : JSNum) :
    jsToFixed x (effDecimals cfg) = Except.error toFixedRangeErr := by
  unfold digitsOkB at h
  unfold jsToFixed
  rcases hm : toIntegerOrInfinity (jsToNumber (effDecimals cfg)) with f | _ | _
  · rw [hm] at h
    have hf : ¬(0 ≤ f ∧ f ≤ 100) := by
      intro hcon
      simp [hcon] at h
    have hrange : f < 0 ∨ 100 < f := by
      by_contra hno
      push_neg at hno
      exact hf ⟨hno.1, hno.2⟩
    simp only [if_pos hrange]
  · rfl
  · rfl

lemma getAmountWithSign_fin (q : ℚ) (nd : Bool) (cfg : ConfigData) (ns : String)
    (hns : formatNumber nd (JSNum.fin q) (effDecimals cfg) = Except.ok ns) :
    getAmountWithSign (JSValue.vnum (JSNum.fin q)) nd cfg =
      Except.ok (if effDirection cfg = "left" then effSymbol cfg ++ ns
        else ns ++ effSymbol cfg) := by
  unfold getAmountWithSign
  rw [if_neg (by simp [jsToNumber, jsIsNaN])]
  simp only [jsToNumber]
  rw [hns]

/-- Claim C1 (amended): with `needDecimal = false`, `getAmountWithSign`
applies `Math.floor` (rounding toward negative infinity), which agrees
with truncation toward zero exactly on the nonnegative amounts; for every
nonnegative finite amount the numeric part of the result is the integer
part of the amount, and 12.345 with a right-placed dollar symbol formats
as "12$".  (For negative non-integer amounts floor and truncation differ:
see the counterexample.) -/
theorem claim_C1 (q : ℚ) (h : 0 ≤ q) :
    getAmountWithSign (JSValue.vnum (JSNum.fin q)) false cfgDollarRight =
      Except.ok (toString (ratTrunc q) ++ "$") := by
  have hfl : ratTrunc q = q.floor := by
    unfold ratTrunc
    rw [Rat.floor_def']
    exact Int.tdiv_eq_ediv (Rat.num_nonneg.mpr h) (Int.natCast_nonneg _)
  have hns : formatNumber false (JSNum.fin q) (effDecimals cfgDollarRight) =
      Except.ok (toString q.floor) := rfl
  rw [getAmountWithSign_fin q false cfgDollarRight _ hns, hfl]
  simp [effDirection, effSymbol, cfgDollarRight]

/-- Claim C1 (counterexample): `getAmountWithSign` does NOT truncate
toward zero for every finite amount: at the negative non-integer amount
-12.3 the numeric part is -13 (the floor), not the integer part -12. -/
theorem claim_C1_cex :
    getAmountWithSign (JSValue.vnum (JSNum.fin (mkRat (-123) 10))) false
        cfgDollarRight = Except.ok "-13$" ∧
      ("-13$" : String) ≠ "-12$" :=
  ⟨rfl, by decide⟩

/-- Claim C1 (witness): the amended theorem applied at amount 12.345
(= 2469/200) gives the spec's example output "12$". -/
theorem claim_C1_witness :
    (0 : ℚ) ≤ mkRat 2469 200 ∧
      getAmountWithSign (JSValue.vnum (JSNum.fin (mkRat 2469 200))) false
        cfgDollarRight = Except.ok "12$" :=
  ⟨by decide, by rw [claim_C1 (mkRat 2469 200) (by decide)]; rfl⟩

/-- Claim C2 (amended): when the first entry of the list is unchecked and
some later entry is checked, `getSelectedAddOn` DOES emit a ", "
separator before the first checked entry (its index in the full list is
non-zero), so the returned string DOES begin with ", ". -/
theorem claim_C2 (x : AddOn) (rest : List AddOn) (hx : x.isChecked = false)
    (hc : ∃ y ∈ rest, y.isChecked = true) :
    ∃ s, getSelectedAddOn (x :: rest) = ", " ++ s := by
  have h1 : getSelectedAddOn (x :: rest) = joinSelectedAddOnsFrom 1 rest := by
    rw [getSelectedAddOn_eq_join]
    simp [joinSelectedAddOns, joinSelectedAddOnsFrom, hx, String.empty_append]
  rcases joinSelectedAddOnsFrom_sep rest 1 one_ne_zero hc with ⟨s, hs⟩
  exact ⟨s, by rw [h1, hs]⟩

/-- Claim C2 (counterexample): on the list whose first checked entry sits
at index 1 of the full list, `getSelectedAddOn` emits the ", " separator
before that entry's name, so the result begins with ", ". -/
theorem claim_C2_cex :
    getSelectedAddOn [⟨"X", false⟩, ⟨"A", true⟩, ⟨"B", true⟩] =
      ", " ++ "A, B" := rfl

/-- Claim C2 (witness): the amended theorem applied to the concrete list
`[{X, unchecked}, {A, checked}]`. -/
theorem claim_C2_witness :
    ∃ s, getSelectedAddOn [⟨"X", false⟩, ⟨"A", true⟩] = ", " ++ s :=
  claim_C2 ⟨"X", false⟩ [⟨"A", true⟩] rfl ⟨⟨"A", true⟩, by simp, rfl⟩

/-- Claim C3 (amended): `getDiscountedAmount`, `getReferDiscount` and
`getSelectedAddOn` are total functions (their embeddings return plain
values; no operation in them can throw), and `getAmountWithSign` returns
a defined string whenever `needDecimal` is false or the effective decimal
digit count (config `digit_after_decimal_point` after the `?? 2` default
and `ToIntegerOrInfinity`) lies in 0..100; but when that count is out of
range and `needDecimal` is true, a valid finite amount makes
`getAmountWithSign` throw a RangeError from `toFixed`, so the four
operations are NOT exception-free under every configuration. -/
theorem claim_C3 (amt : JSValue) (nd : Bool) (cfg : ConfigData) (q : ℚ)
    (h : nd = false ∨ digitsOkB cfg = true) :
    (∃ s, getAmountWithSign amt nd cfg = Except.ok s) ∧
      (digitsOkB cfg = false →
        ∃ e, getAmountWithSign (JSValue.vnum (JSNum.fin q)) true cfg =
          Except.error e) := by
  constructor
  · unfold getAmountWithSign
    by_cases hg : amt = JSValue.vnull ∨ amt = JSValue.vundef ∨
        jsIsNaN (jsToNumber amt) = true
    · rw [if_pos hg]; exact ⟨"", rfl⟩
    · rw [if_neg hg]
      cases nd with
      | false => exact ⟨_, rfl⟩
      | true =>
        have hd : digitsOkB cfg = true := h.resolve_left (by simp)
        rcases jsToFixed_ok_of_digitsOk cfg hd (jsToNumber amt) with ⟨s, hs⟩
        refine ⟨if effDirection cfg = "left" then effSymbol cfg ++ s
          else s ++ effSymbol cfg, ?_⟩
        simp only [formatNumber, if_pos trivial, hs]
  · intro hbad
    unfold getAmountWithSign
    rw [if_neg (by simp [jsToNumber, jsIsNaN])]
    have he := jsToFixed_err_of_digitsBad cfg hbad (JSNum.fin q)
    refine ⟨toFixedRangeErr, ?_⟩
    simp only [jsToNumber, formatNumber, if_pos trivial, he]

/-- Claim C3 (counterexample): with `digit_after_decimal_point = 101` in
the configuration, `getAmountWithSign` of the perfectly ordinary amount 5
with `needDecimal = true` throws (returns the RangeError), so not every
input shape is exception-free. -/
theorem claim_C3_cex :
    getAmountWithSign (JSValue.vnum (JSNum.fin 5)) true cfgDigits101 =
      Except.error toFixedRangeErr := rfl

/-- Claim C3 (witness): the amended theorem applied at amount 3,
`needDecimal = false`, and the out-of-range configuration; both conjuncts
are exercised (the second one's hypothesis holds for this
configuration). -/
theorem claim_C3_witness :
    (∃ s, getAmountWithSign (JSValue.vnum (JSNum.fin 3)) false cfgDigits101 =
      Except.ok s) ∧
      (digitsOkB cfgDigits101 = false →
        ∃ e, getAmountWithSign (JSValue.vnum (JSNum.fin 3)) true cfgDigits101 =
          Except.error e) :=
  claim_C3 (JSValue.vnum (JSNum.fin 3)) false cfgDigits101 3 (Or.inl rfl)

/-- Claim C4 (amended): `getAmountWithSign` returns "" (without
throwing) whenever the amount is `null`, `undefined`, or converts to NaN
(e.g. the string "abc"), for every `needDecimal` flag and configuration;
but an infinite amount is NOT mapped to "": it passes the NaN-only guard
and formats as "Infinity". -/
theorem claim_C4 (amt : JSValue) (nd : Bool) (cfg : ConfigData)
    (h : amt = JSValue.vnull ∨ amt = JSValue.vundef ∨
      jsIsNaN (jsToNumber amt) = true) :
    getAmountWithSign amt nd cfg = Except.ok "" ∧
      getAmountWithSign (JSValue.vnum (JSNum.inf false)) true cfgEmpty =
        Except.ok "Infinity" := by
  constructor
  · unfold getAmountWithSign
    rw [if_pos h]
  · rfl

/-- Claim C4 (counterexample): the infinite amount is not convertible to a
finite number, yet `getAmountWithSign` returns "Infinity", not the empty
string. -/
theorem claim_C4_cex :
    getAmountWithSign (JSValue.vnum (JSNum.inf false)) true cfgEmpty =
        Except.ok "Infinity" ∧
      (Except.ok "Infinity" : Except String String) ≠ Except.ok "" :=
  ⟨rfl, by simp⟩

/-- Claim C4 (witness): the amended theorem applied at the string "abc"
(which converts to NaN). -/
theorem claim_C4_witness :
    getAmountWithSign (JSValue.vstr "abc") true cfgEmpty = Except.ok "" ∧
      getAmountWithSign (JSValue.vnum (JSNum.inf false)) true cfgEmpty =
        Except.ok "Infinity" :=
  claim_C4 (JSValue.vstr "abc") true cfgEmpty (Or.inr (Or.inr (by decide)))

/-- Claim C5 (confirmed): for every positive discount, `"amount"`
subtracts `discount * quantity` (quantity defaulting to 1 when the
argument is absent or falsy, i.e. zero), while `"percent"` and `"fixed"`
both subtract `discount/100` of the price with the quantity playing no
role at all. -/
theorem claim_C5 {α : Type} (price discount : ℚ) (sd : α) (q : ℚ)
    (hq : q ≠ 0) (hd : 0 < discount) :
    getDiscountedAmount price discount "amount" sd (some q) =
        price - discount * q ∧
      getDiscountedAmount price discount "amount" sd none =
        price - discount * 1 ∧
      getDiscountedAmount price discount "amount" sd (some 0) =
        price - discount * 1 ∧
      getDiscountedAmount price discount "percent" sd (some q) =
        price - discount / 100 * price ∧
      getDiscountedAmount price discount "fixed" sd (some q) =
        price - discount / 100 * price ∧
      getDiscountedAmount price discount "percent" sd none =
        price - discount / 100 * price := by
  refine ⟨?_, ?_, ?_, ?_, ?_, ?_⟩ <;>
    simp [getDiscountedAmount, hd, hq]

/-- Claim C5 (witness): the theorem at price 100, discount 10, quantity 2
(spec section 8 examples: 100 - 10*2 for `"amount"`, quantity ignored for
`"percent"`). -/
theorem claim_C5_witness :
    getDiscountedAmount 100 10 "amount" (0 : ℚ) (some 2) =
        (100 : ℚ) - 10 * 2 ∧
      getDiscountedAmount 100 10 "amount" (0 : ℚ) none = (100 : ℚ) - 10 * 1 ∧
      getDiscountedAmount 100 10 "amount" (0 : ℚ) (some 0) =
        (100 : ℚ) - 10 * 1 ∧
      getDiscountedAmount 100 10 "percent" (0 : ℚ) (some 2) =
        (100 : ℚ) - 10 / 100 * 100 ∧
      getDiscountedAmount 100 10 "fixed" (0 : ℚ) (some 2) =
        (100 : ℚ) - 10 / 100 * 100 ∧
      getDiscountedAmount 100 10 "percent" (0 : ℚ) none =
        (100 : ℚ) - 10 / 100 * 100 :=
  claim_C5 100 10 (0 : ℚ) 2 (by decide) (by decide)

/-- Claim C6 (confirmed): `getDiscountedAmount` returns the price
unchanged whenever the discount is non-positive, and likewise whenever
the discount type is none of the recognized literals `"amount"`,
`"percent"`, `"fixed"`. -/
theorem claim_C6 {α : Type} (price discount : ℚ) (discountType : String)
    (sd : α) (quantity : Option ℚ)
    (h : discount ≤ 0 ∨
      (discountType ≠ "amount" ∧ discountType ≠ "percent" ∧
        discountType ≠ "fixed")) :
    getDiscountedAmount price discount discountType sd quantity = price := by
  rcases h with h | ⟨h1, h2, h3⟩
  · simp [getDiscountedAmount, not_lt.mpr h]
  · simp [getDiscountedAmount, h1, h2, h3]

/-- Claim C6 (witness): the theorem at a zero discount (spec example
`applyDiscount(100, 0, "amount", 1) === 100`) and, separately, at an
unrecognized kind with a positive discount. -/
theorem claim_C6_witness :
    getDiscountedAmount 100 0 "amount" (0 : ℚ) (some 1) = (100 : ℚ) ∧
      getDiscountedAmount 100 5 "bogus" (0 : ℚ) (some 1) = (100 : ℚ) :=
  ⟨claim_C6 100 0 "amount" (0 : ℚ) (some 1) (Or.inl (by decide)),
    claim_C6 100 5 "bogus" (0 : ℚ) (some 1)
      (Or.inr ⟨by decide, by decide, by decide⟩)⟩

/-- Claim C7 (confirmed): for every finite amount (whenever formatting
succeeds, i.e. `needDecimal` is false or the digits configuration is in
range), the result is the numeric part with the configured currency
symbol prefixed when the symbol position is "left" and suffixed
otherwise, the numeric part not depending on the symbol fields; and a
fully absent configuration behaves exactly as `decimalDigits = 2`,
`currencySymbol = ""`, `symbolPosition = "left"`. -/
theorem claim_C7 (q : ℚ) (nd : Bool) (cfg : ConfigData)
    (h : nd = false ∨ digitsOkB cfg = true) :
    (∃ ns,
        getAmountWithSign (JSValue.vnum (JSNum.fin q)) nd
            { cfg with
              currency_symbol := none,
              currency_symbol_direction := none } = Except.ok ns ∧
          getAmountWithSign (JSValue.vnum (JSNum.fin q)) nd cfg =
            Except.ok (if effDirection cfg = "left" then effSymbol cfg ++ ns
              else ns ++ effSymbol cfg)) ∧
      (∀ (amt : JSValue) (nd2 : Bool),
        getAmountWithSign amt nd2 cfgEmpty =
          getAmountWithSign amt nd2
            { digit_after_decimal_point := some (JSValue.vnum (JSNum.fin 2)),
              currency_symbol := some "",
              currency_symbol_direction := some "left" }) := by
  constructor
  · have hfmt : ∃ ns, formatNumber nd (JSNum.fin q) (effDecimals cfg) =
        Except.ok ns := by
      cases nd with
      | false => exact ⟨_, rfl⟩
      | true =>
        have hd : digitsOkB cfg = true := h.resolve_left (by simp)
        rcases jsToFixed_ok_of_digitsOk cfg hd (JSNum.fin q) with ⟨s, hs⟩
        exact ⟨s, hs⟩
    rcases hfmt with ⟨ns, hns⟩
    refine ⟨ns, ?_, getAmountWithSign_fin q nd cfg ns hns⟩
    rw [getAmountWithSign_fin q nd
      { cfg with currency_symbol := none, currency_symbol_direction := none }
      ns hns]
    simp [effDirection, effSymbol, String.empty_append]
  · intro amt nd2
    rfl

/-- Claim C7 (witness): the theorem at amount 1, `needDecimal = false`,
and the right-placed dollar configuration. -/
theorem claim_C7_witness :
    (∃ ns,
        getAmountWithSign (JSValue.vnum (JSNum.fin 1)) false
            { cfgDollarRight with
              currency_symbol := none,
              currency_symbol_direction := none } = Except.ok ns ∧
          getAmountWithSign (JSValue.vnum (JSNum.fin 1)) false cfgDollarRight =
            Except.ok (if effDirection cfgDollarRight = "left" then
              effSymbol cfgDollarRight ++ ns
              else ns ++ effSymbol cfgDollarRight)) ∧
      (∀ (amt : JSValue) (nd2 : Bool),
        getAmountWithSign amt nd2 cfgEmpty =
          getAmountWithSign amt nd2
            { digit_after_decimal_point := some (JSValue.vnum (JSNum.fin 2)),
              currency_symbol := some "",
              currency_symbol_direction := some "left" }) :=
  claim_C7 1 false cfgDollarRight (Or.inl rfl)

/-- Claim C8 (confirmed): `getSelectedAddOn` returns "" on the empty list
and on any list with no checked entry; it agrees everywhere with the
spec's `joinSelectedAddOns` builder, which includes exactly the names of
the checked entries in their original order (each preceded by ", " when
its index in the full list is non-zero); and on the spec's example list
it returns "Cheese, Sauce". -/
theorem claim_C8 (l : List AddOn) (h : ∀ x ∈ l, x.isChecked = false) :
    getSelectedAddOn l = "" ∧
      getSelectedAddOn
          [⟨"Cheese", true⟩, ⟨"Bacon", false⟩, ⟨"Sauce", true⟩] =
        "Cheese, Sauce" ∧
      getSelectedAddOn ([] : List AddOn) = "" ∧
      ∀ l2, getSelectedAddOn l2 = joinSelectedAddOns l2 := by
  refine ⟨?_, rfl, rfl, getSelectedAddOn_eq_join⟩
  rw [getSelectedAddOn_eq_join]
  exact joinSelectedAddOnsFrom_unchecked l 0 h

/-- Claim C8 (witness): the theorem at the one-element all-unchecked
list. -/
theorem claim_C8_witness :
    getSelectedAddOn [⟨"Bacon", false⟩] = "" ∧
      getSelectedAddOn
          [⟨"Cheese", true⟩, ⟨"Bacon", false⟩, ⟨"Sauce", true⟩] =
        "Cheese, Sauce" ∧
      getSelectedAddOn ([] : List AddOn) = "" ∧
      ∀ l2, getSelectedAddOn l2 = joinSelectedAddOns l2 :=
  claim_C8 [⟨"Bacon", false⟩] (by decide)

/-- Claim C9 (confirmed): `getReferDiscount` returns `discountValue/100 *
totalAmount` exactly when the kind is the string `"percentage"`, and the
discount value verbatim (the total ignored) for every other kind. -/
theorem claim_C9 (totalAmount discountValue : ℚ) (kind : String)
    (h : kind ≠ "percentage") :
    getReferDiscount totalAmount discountValue "percentage" =
        discountValue / 100 * totalAmount ∧
      getReferDiscount totalAmount discountValue kind = discountValue := by
  constructor
  · simp [getReferDiscount]
  · simp [getReferDiscount, h]

/-- Claim C9 (witness): the theorem at total 200, value 15, kind "flat"
(spec section 8 examples). -/
theorem claim_C9_witness :
    getReferDiscount 200 15 "percentage" = (15 : ℚ) / 100 * 200 ∧
      getReferDiscount 200 15 "flat" = (15 : ℚ) :=
  claim_C9 200 15 "flat" (by decide)

/-- Claim C10 (confirmed): `getDiscountedAmount` never reads its
`storeDiscount` parameter — two calls agreeing on everything else return
the same value whatever (of whatever type) is passed there. -/
theorem claim_C10 {α β : Type} (price discount : ℚ) (discountType : String)
    (sd1 : α) (sd2 : β) (quantity : Option ℚ) :
    getDiscountedAmount price discount discountType sd1 quantity =
      getDiscountedAmount price discount discountType sd2 quantity := rfl
